import Mathlib

/-!
Verification of the search / geolocation / cache core of the `gps` repository.

The Python sources are shallowly embedded:
* strings are Lean `String`s (sequences of Unicode code points, as in CPython);
* Python `float` arithmetic is idealised as exact arithmetic: `ℚ` where the
  program only compares and stores decimal literals, `ℝ` where it calls the
  trigonometric functions of `math`;
* the SQLite repository is modelled as a `List Station` held in the order the
  queries return it (`ORDER BY created_at DESC`); `LIKE '%q%'` is modelled as
  substring containment (ASCII case folding of SQLite `LIKE` and `%`/`_`
  wildcards inside the query are not modelled: no claim below depends on them);
* the best-effort caches (`SimpleCache` consulted at the top of the service
  calls) are modelled at a cold cache, i.e. the services are modelled by the
  computation they perform on a cache miss; the cache itself is modelled
  separately, with explicit time passing;
* Unicode character classes (`str.isalnum`, `str.isspace`, `str.lower`, regex
  `\w`/`\s`) are modelled on the repertoire the program exercises: ASCII,
  Hangul compatibility jamo U+3131–U+3163 and composed syllables U+AC00–U+D7A3.
-/

namespace GPS

/-! ## Korean text utilities, from `src/gps_inspection/utils/korean_utils.py` -/

/-- Source `KoreanUtils.is_hangul`: the character is a composed Hangul
syllable, codepoint in [U+AC00, U+D7A3]. -/
def isHangul (c : Char) : Bool :=
  0xAC00 ≤ c.toNat && c.toNat ≤ 0xD7A3

/-- Source `KoreanUtils.is_chosung_only`: the character is a standalone
initial-consonant jamo, codepoint in [U+3131 (ㄱ), U+314E (ㅎ)]. -/
def isChosungOnly (c : Char) : Bool :=
  0x3131 ≤ c.toNat && c.toNat ≤ 0x314E

/-- Model of Python `str.isalnum` on the repertoire the program exercises:
ASCII alphanumerics, Hangul compatibility jamo (letters in Unicode, category
Lo) and composed Hangul syllables. -/
def pyIsAlnum (c : Char) : Bool :=
  c.isAlphanum || isHangul c || (0x3131 ≤ c.toNat && c.toNat ≤ 0x3163)

/-- Model of Python `str.isspace` / regex `\s` (ASCII whitespace). -/
def pyIsSpace (c : Char) : Bool :=
  c.isWhitespace || c.toNat = 0x0b || c.toNat = 0x0c

/-- Source `KoreanUtils.CHOSUNG_LIST`: the 19 initial consonants, in the
order of the leading-jamo index of composed syllables. -/
def CHOSUNG_LIST : List Char :=
  ['ㄱ', 'ㄲ', 'ㄴ', 'ㄷ', 'ㄸ', 'ㄹ', 'ㅁ', 'ㅂ', 'ㅃ', 'ㅅ',
   'ㅆ', 'ㅇ', 'ㅈ', 'ㅉ', 'ㅊ', 'ㅋ', 'ㅌ', 'ㅍ', 'ㅎ']

/-- One step of `KoreanUtils.extract_chosung`: a composed syllable maps to
its initial consonant (`(code − 0xAC00) / (21·28)` indexed into
`CHOSUNG_LIST`; the index is < 19 for every syllable, so the `getD` default
is never used), a standalone initial consonant or an alphanumeric character
passes through, every other character is dropped. -/
def chosungOfChar (c : Char) : Option Char :=
  if isHangul c then some (CHOSUNG_LIST.getD ((c.toNat - 0xAC00) / (21 * 28)) 'ㄱ')
  else if isChosungOnly c then some c
  else if pyIsAlnum c then some c
  else none

/-- Source `KoreanUtils.extract_chosung`. -/
def extractChosung (s : String) : String :=
  String.mk (s.toList.filterMap chosungOfChar)

/-- Source `KoreanUtils.is_chosung_query`: non-empty, every character is a
standalone initial consonant, alphanumeric or whitespace, and at least one
character is a standalone initial consonant. -/
def isChosungQuery (s : String) : Bool :=
  !s.isEmpty &&
  s.toList.all (fun c => isChosungOnly c || pyIsAlnum c || pyIsSpace c) &&
  s.toList.any isChosungOnly

/-- Model of Python `str.strip()`: drop leading and trailing whitespace. -/
def pyStrip (l : List Char) : List Char :=
  ((l.dropWhile pyIsSpace).reverse.dropWhile pyIsSpace).reverse

/-- Model of `re.sub(r'\s+', ' ', ·)`: every maximal run of whitespace
characters becomes a single space. -/
def collapseWs : List Char → List Char
  | [] => []
  | [c] => if pyIsSpace c then [' '] else [c]
  | c₁ :: c₂ :: rest =>
    if pyIsSpace c₁ && pyIsSpace c₂ then collapseWs (c₂ :: rest)
    else (if pyIsSpace c₁ then ' ' else c₁) :: collapseWs (c₂ :: rest)

/-- The character class kept by `re.sub(r'[^\w\s가-힣]', '', ·)`: word
characters (alphanumeric or underscore), whitespace, composed Hangul. -/
def isKeptByNormalize (c : Char) : Bool :=
  pyIsAlnum c || c = '_' || pyIsSpace c || isHangul c

/-- Source `KoreanUtils.normalize_text`: empty stays empty; otherwise strip,
collapse internal whitespace runs to one space, then delete every character
outside `[\w\s가-힣]`. -/
def normalizeText (s : String) : String :=
  if s.isEmpty then ""
  else String.mk ((collapseWs (pyStrip s.toList)).filter isKeptByNormalize)

/-- Model of Python `str.split(',')`: split at every comma; the empty
string splits to `[""]`. -/
def splitOnComma : List Char → List (List Char)
  | [] => [[]]
  | c :: t =>
    if c = ',' then [] :: splitOnComma t
    else
      match splitOnComma t with
      | [] => [[c]]
      | h :: r => (c :: h) :: r

/-- Model of Python `str.lower` on the exercised repertoire: ASCII case
mapping, identity elsewhere (in particular on Hangul). -/
def pyLower (s : String) : String :=
  String.mk (s.toList.map Char.toLower)

/-- Helper for `lev`: given `f = lev t₁` (the distance function of the
tail), compute `lev (c₁ :: t₁)` by structural recursion on the second
string.  On `[]` the distance is `f [] + 1 = (c₁ :: t₁).length`. -/
def levCons (c₁ : Char) (f : List Char → Nat) : List Char → Nat
  | [] => f [] + 1
  | c₂ :: t₂ =>
    if c₁ = c₂ then f t₂
    else 1 + min (f (c₂ :: t₂)) (min (levCons c₁ f t₂) (f t₂))

/-- Levenshtein distance. This is the recurrence that the dynamic-programming
table of `KoreanUtils.simple_edit_distance` tabulates: `dp[i][0] = i`,
`dp[0][j] = j`, and `dp[i][j]` is the diagonal on equal characters, else one
plus the minimum of deletion, insertion and substitution (written as a
two-level structural recursion so that it evaluates by kernel reduction). -/
def lev : List Char → List Char → Nat
  | [], l₂ => l₂.length
  | c₁ :: t₁, l₂ => levCons c₁ (lev t₁) l₂

/-- Source `KoreanUtils.simple_edit_distance`: an empty input short-circuits
to the raw length of the other; otherwise both inputs are lower-cased and
normalized and their Levenshtein distance is computed. -/
def simpleEditDistance (s₁ s₂ : String) : Nat :=
  if s₁.isEmpty then s₂.length
  else if s₂.isEmpty then s₁.length
  else lev (normalizeText (pyLower s₁)).toList (normalizeText (pyLower s₂)).toList

/-- Source `KoreanUtils.calculate_similarity`: 1 when both inputs are empty,
else `1 − editDistance/max(len s₁, len s₂)` (the maximum is taken over the
raw, un-normalized lengths). -/
def calculateSimilarity (s₁ s₂ : String) : ℚ :=
  if s₁.isEmpty && s₂.isEmpty then 1
  else
    let maxLen := max s₁.length s₂.length
    if maxLen = 0 then 1
    else 1 - (simpleEditDistance s₁ s₂ : ℚ) / (maxLen : ℚ)

/-! ## Geodesy, from `src/gps_inspection/models/database.py` (`GeoUtils`)

Python `float` trigonometry is idealised as exact real arithmetic, the
standard shallow embedding for numeric geodesy code. -/

/-- Model of `math.radians`: degrees to radians. -/
noncomputable def radians (x : ℝ) : ℝ := x * Real.pi / 180

open Classical in
/-- Model of `math.atan2 y x` over the reals (signed zeros do not exist
in `ℝ`, so the `x = 0` branches collapse to the sign of `y`). -/
noncomputable def pyAtan2 (y x : ℝ) : ℝ :=
  if 0 < x then Real.arctan (y / x)
  else if x < 0 then
    (if 0 ≤ y then Real.arctan (y / x) + Real.pi else Real.arctan (y / x) - Real.pi)
  else
    (if 0 < y then Real.pi / 2 else if y < 0 then -(Real.pi / 2) else 0)

/-- Source `GeoUtils.haversine_distance`: haversine great-circle distance
with Earth radius `R = 6371000`.  Per its own docstring (and its use in
`WirelessStationDAO.find_nearby_stations`), the returned value is in
METERS. -/
noncomputable def haversineDistance (lat₁ lon₁ lat₂ lon₂ : ℚ) : ℝ :=
  let R : ℝ := 6371000
  let lat1Rad := radians (lat₁ : ℝ)
  let lat2Rad := radians (lat₂ : ℝ)
  let deltaLat := radians ((lat₂ : ℝ) - (lat₁ : ℝ))
  let deltaLon := radians ((lon₂ : ℝ) - (lon₁ : ℝ))
  let a := Real.sin (deltaLat / 2) ^ 2 +
    Real.cos lat1Rad * Real.cos lat2Rad * Real.sin (deltaLon / 2) ^ 2
  let c := 2 * pyAtan2 (Real.sqrt a) (Real.sqrt (1 - a))
  R * c

/-- Modelled from the spec (§4.5): `haversineDistanceMeters` is the standard
great-circle formula with Earth radius 6,371,000 m — the reference value the
claims compare the code against.  It coincides with the source formula
`haversineDistance` (see `haversineDistance_eq_spec`). -/
noncomputable def haversineDistanceMetersSpec (lat₁ lon₁ lat₂ lon₂ : ℚ) : ℝ :=
  6371000 * (2 * pyAtan2
    (Real.sqrt (Real.sin (radians ((lat₂ : ℝ) - (lat₁ : ℝ)) / 2) ^ 2 +
      Real.cos (radians (lat₁ : ℝ)) * Real.cos (radians (lat₂ : ℝ)) *
        Real.sin (radians ((lon₂ : ℝ) - (lon₁ : ℝ)) / 2) ^ 2))
    (Real.sqrt (1 - (Real.sin (radians ((lat₂ : ℝ) - (lat₁ : ℝ)) / 2) ^ 2 +
      Real.cos (radians (lat₁ : ℝ)) * Real.cos (radians (lat₂ : ℝ)) *
        Real.sin (radians ((lon₂ : ℝ) - (lon₁ : ℝ)) / 2) ^ 2))))

/-- Model of Python `round(x, 1)`: round to the nearest multiple of 0.1.
CPython rounds exact ties to even; no fact proved below sits on an exact
tie, so `round` (ties upward) is an adequate model. -/
noncomputable def round1 (x : ℝ) : ℝ := ((round (10 * x) : ℤ) : ℝ) / 10

/-- Model of Python `round(x, 3)` on rationals (same tie caveat as
`round1`). -/
def round3 (x : ℚ) : ℚ := ((round (1000 * x) : ℤ) : ℚ) / 1000

/-- Source `GeoUtils.get_bounding_box`: approximate degree box around a
center, 111,000 m per latitude degree and `111000·cos(lat)` per longitude
degree; returns `(minLat, maxLat, minLon, maxLon)`. -/
noncomputable def getBoundingBox (lat lon radius : ℚ) : ℝ × ℝ × ℝ × ℝ :=
  let latDegreeMeters : ℝ := 111000
  let lonDegreeMeters : ℝ := 111000 * Real.cos (radians (lat : ℝ))
  let latDelta := (radius : ℝ) / latDegreeMeters
  let lonDelta := (radius : ℝ) / lonDegreeMeters
  ((lat : ℝ) - latDelta, (lat : ℝ) + latDelta, (lon : ℝ) - lonDelta, (lon : ℝ) + lonDelta)

/-! ## Station model and DAO, from `src/gps_inspection/models/wireless_station.py`

The repository (`wireless_stations` table) is modelled as a `List Station`
held in the order the DAO's queries return rows (`ORDER BY created_at
DESC`); the datetime bookkeeping columns are not part of any claim and are
represented only through that ordering.  Coordinates are `ℚ` (every Python
float is a rational). -/

structure Station where
  station_id : String
  station_name : String
  station_type : String
  latitude : ℚ
  longitude : ℚ
  inspector_id : String
  station_alias : Option String := none
  gps_accuracy : Option ℚ := none
  tmap_address : Option String := none
  region_name : Option String := none
  detailed_location : Option String := none
  registration_status : String := "진행중"
  access_count : ℕ := 0
deriving Repr, DecidableEq

/-- Model of Python substring test `needle in hay`, and of SQL
`hay LIKE '%needle%'` (SQLite's ASCII case folding and `%`/`_` wildcards
inside the needle are not modelled; no claim below depends on them). -/
def strContains (hay needle : String) : Bool :=
  decide (needle.toList <:+: hay.toList)

/-- The `WHERE station_name LIKE ? OR station_alias LIKE ?` predicate of
`WirelessStationDAO.search_stations_by_name` (`LIKE` on a NULL alias is not
satisfied). -/
def likeNameOrAlias (q : String) (s : Station) : Bool :=
  strContains s.station_name q ||
  (match s.station_alias with
   | some a => strContains a q
   | none => false)

/-- Source `WirelessStationDAO.search_stations_by_name`: all rows matching
the name/alias `LIKE` filter, with `LIMIT per_page OFFSET (page-1)*per_page`
applied to the list and the pre-pagination match count returned. -/
def searchStationsByName (db : List Station) (q : String) (page per_page : ℕ) :
    List Station × ℕ :=
  let rows := db.filter (likeNameOrAlias q)
  ((rows.drop ((page - 1) * per_page)).take per_page, rows.length)

structure NearbyEntry where
  station : Station
  distance_meters : ℝ

open Classical in
/-- Source `WirelessStationDAO.find_nearby_stations`: take the rows inside
the bounding box (`BETWEEN` on both coordinates), keep those whose exact
haversine distance is within the radius, attach the distance rounded to
0.1 m, and sort ascending by the stored (rounded) distance. -/
noncomputable def findNearbyStations (db : List Station) (lat lon radius : ℚ) :
    List NearbyEntry :=
  let box := getBoundingBox lat lon radius
  let candidates := db.filter (fun s =>
    decide (box.1 ≤ (s.latitude : ℝ)) && decide ((s.latitude : ℝ) ≤ box.2.1) &&
    decide (box.2.2.1 ≤ (s.longitude : ℝ)) && decide ((s.longitude : ℝ) ≤ box.2.2.2))
  let nearby := candidates.filterMap (fun s =>
    let d := haversineDistance lat lon s.latitude s.longitude
    if d ≤ (radius : ℝ) then some ⟨s, round1 d⟩ else none)
  nearby.mergeSort (fun a b => decide (a.distance_meters ≤ b.distance_meters))

/-! ## Smart search service, from `src/gps_inspection/services/search_service.py`

`SmartSearchService.search_stations` on a cold cache.  The stage scores are
the Python literals 1.0 / 0.8 / 0.6 / 0.4, written `mkRat` so that they
evaluate by kernel reduction. -/

/-- The per-station test of `SmartSearchService._exact_match_search`:
`s.station_name == query or (s.station_alias and s.station_alias == query)`.
Python truthiness makes a `None` or empty alias fail the second disjunct. -/
def exactCriterion (q : String) (s : Station) : Bool :=
  s.station_name == q ||
  (match s.station_alias with
   | some a => !a.isEmpty && a == q
   | none => false)

/-- Source `SmartSearchService._exact_match_search`: filter the first 1000
`LIKE` candidates by `exactCriterion`. -/
def exactMatchSearch (db : List Station) (q : String) : List Station :=
  ((searchStationsByName db q 1 1000).1).filter (exactCriterion q)

/-- Source `SmartSearchService._partial_match_search`: the first 1000
`LIKE` candidates, unfiltered. -/
def substringMatchSearch (db : List Station) (q : String) : List Station :=
  (searchStationsByName db q 1 1000).1

/-- Source `SmartSearchService._chosung_search`: if the query is an
initial-consonant query, scan the first 1000 stations; a station is appended
once when the query is a substring of its name's chosung sequence, and
appended AGAIN when the query is a substring of its (truthy) alias's chosung
sequence — the source has no `continue` between the two checks. -/
def chosungSearch (db : List Station) (q : String) : List Station :=
  if !isChosungQuery q then []
  else
    ((searchStationsByName db "" 1 1000).1).flatMap (fun s =>
      (if strContains (extractChosung s.station_name) q then [s] else []) ++
      (match s.station_alias with
       | some a =>
           if !a.isEmpty && strContains (extractChosung a) q then [s] else []
       | none => []))

/-- Source `SmartSearchService._fuzzy_search`: scan the first 1000
stations; threshold `max 1 (len(query) // 3)`; keep a station whose name is
within threshold, or (name failing) whose truthy alias is within
threshold. -/
def fuzzySearch (db : List Station) (q : String) : List Station :=
  let threshold := max 1 (q.length / 3)
  ((searchStationsByName db "" 1 1000).1).filter (fun s =>
    decide (simpleEditDistance q s.station_name ≤ threshold) ||
    (match s.station_alias with
     | some a => !a.isEmpty && decide (simpleEditDistance q a ≤ threshold)
     | none => false))

/-- The station ids of scored stage output, as used for the `existing_ids`
sets of `search_stations`. -/
def stationIds (rs : List (Station × ℚ × String)) : List String :=
  rs.map (fun r => r.1.station_id)

/-- Lines 73–112 of `search_service.py`: run the four stages in order; each
later stage drops stations whose id was already produced by an earlier
stage (`existing_ids` is rebuilt from `all_results` before each stage). -/
def mergedResults (db : List Station) (q : String) : List (Station × ℚ × String) :=
  let exact := (exactMatchSearch db q).map (fun s => (s, (1 : ℚ), "exact"))
  let ids₁ := stationIds exact
  let par := ((substringMatchSearch db q).filter
      (fun s => !ids₁.contains s.station_id)).map (fun s => (s, mkRat 8 10, "partial"))
  let acc₂ := exact ++ par
  let ids₂ := stationIds acc₂
  let cho := ((chosungSearch db q).filter
      (fun s => !ids₂.contains s.station_id)).map (fun s => (s, mkRat 6 10, "chosung"))
  let acc₃ := acc₂ ++ cho
  let ids₃ := stationIds acc₃
  let fuz := ((fuzzySearch db q).filter
      (fun s => !ids₃.contains s.station_id)).map (fun s => (s, mkRat 4 10, "fuzzy"))
  acc₃ ++ fuz

structure SearchResult where
  station : Station
  relevance_score : ℚ
  match_type : String
  distance_meters : Option ℝ := none

/-- Lines 124–131 of `search_service.py`: when a user location is given and
the station's latitude and longitude are both truthy (Python: nonzero), the
attached distance is `round(GeoUtils.haversine_distance(...) * 1000, 1)` —
the source multiplies the (already meter-valued) haversine result by 1000,
its comment believing it converts km to meters. -/
noncomputable def attachedDistance (loc : Option (ℚ × ℚ)) (s : Station) : Option ℝ :=
  match loc with
  | some (ulat, ulon) =>
      if s.latitude ≠ 0 ∧ s.longitude ≠ 0 then
        some (round1 (1000 * haversineDistance ulat ulon s.latitude s.longitude))
      else none
  | none => none

/-- Lines 114–136: convert scored stations to `SearchResult`s, attaching
the distance when a reference location was supplied. -/
noncomputable def toSearchResults (loc : Option (ℚ × ℚ))
    (rs : List (Station × ℚ × String)) : List SearchResult :=
  rs.map (fun r =>
    { station := r.1, relevance_score := r.2.1, match_type := r.2.2,
      distance_meters := attachedDistance loc r.1 })

/-- Sort key for location-less search: ascending in `-relevance_score`. -/
def leScore (a b : SearchResult) : Bool :=
  decide (b.relevance_score ≤ a.relevance_score)

/-- `+infinity`-padded comparison of optional distances (a missing distance
sorts last, like the source's `or float('inf')`). -/
def optDistLE : Option ℝ → Option ℝ → Prop
  | some x, some y => x ≤ y
  | some _, none => True
  | none, some _ => False
  | none, none => True

open Classical in
/-- Sort key for located search: ascending lexicographic in
`(-relevance_score, distance-or-infinity)`. -/
noncomputable def leScoreDist (a b : SearchResult) : Bool :=
  decide (b.relevance_score < a.relevance_score ∨
    (a.relevance_score = b.relevance_score ∧
      optDistLE a.distance_meters b.distance_meters))

/-- Lines 138–142: Python's stable `list.sort` under the two keys, modelled
by the stable `List.mergeSort`. -/
noncomputable def sortResults (loc : Option (ℚ × ℚ)) (rs : List SearchResult) :
    List SearchResult :=
  match loc with
  | some _ => rs.mergeSort leScoreDist
  | none => rs.mergeSort leScore

/-- Python slice-index resolution: a negative index counts from the end,
then the index is clamped into `[0, len]`. -/
def pySliceIdx (len : ℕ) (i : ℤ) : ℕ :=
  (min (max (if i < 0 then (len : ℤ) + i else i) 0) (len : ℤ)).toNat

/-- Python slice `l[a:b]` for integer endpoints. -/
def pySlice {α : Type} (l : List α) (a b : ℤ) : List α :=
  (l.take (pySliceIdx l.length b)).drop (pySliceIdx l.length a)

/-- Source `SmartSearchService.search_stations` on a cold cache: empty or
whitespace-only query short-circuits to `([], 0)`; otherwise merge the
stages, attach distances, sort, and return the Python slice
`[(page-1)*per_page : (page-1)*per_page + per_page]` together with the
pre-pagination total. -/
noncomputable def searchStations (db : List Station) (q : String)
    (loc : Option (ℚ × ℚ)) (page per_page : ℤ) : List SearchResult × ℕ :=
  if (String.mk (pyStrip q.toList)).isEmpty then ([], 0)
  else
    let sorted := sortResults loc (toSearchResults loc (mergedResults db q))
    let total := sorted.length
    let start := (page - 1) * per_page
    (pySlice sorted start (start + per_page), total)

/-! ## Location service, from `src/gps_inspection/services/location_service.py`

The human-readable warning / suggestion / recommendation strings carry
interpolated numbers; they are abstracted to tags, one tag per distinct
`append` site of the source, in source order. -/

inductive ValidationWarning where
  | latRange
  | lonRange
  | koreaBounds
  | lowAccuracy
deriving Repr, DecidableEq

inductive ValidationSuggestion where
  | recheckCoordinates
  | remeasureGps
  | accuracyGood
  | accuracyExcellent
deriving Repr, DecidableEq

structure LocationValidationResult where
  is_valid : Bool
  accuracy_meters : Option ℚ
  confidence_level : String
  warnings : List ValidationWarning
  suggestions : List ValidationSuggestion
deriving Repr, DecidableEq

/-- Source `LocationService.validate_location`: range warnings for latitude
outside [-90, 90] and longitude outside [-180, 180]; a warning (plus a
suggestion) when outside the fixed national box lat [33.0, 38.6] ×
lon [124.5, 132.0]; accuracy tiers low (> 100 m, with a warning), medium
(> 20 m), high (otherwise, also when no accuracy is supplied).
`is_valid` is computed at the end as `len(warnings) == 0`. -/
def validateLocation (lat lon : ℚ) (acc : Option ℚ) : LocationValidationResult :=
  let w₁ : List ValidationWarning :=
    if ¬(-90 ≤ lat ∧ lat ≤ 90) then [.latRange] else []
  let w₂ : List ValidationWarning :=
    if ¬(-180 ≤ lon ∧ lon ≤ 180) then [.lonRange] else []
  let inKorea : Prop := 33 ≤ lat ∧ lat ≤ mkRat 386 10 ∧ mkRat 1245 10 ≤ lon ∧ lon ≤ 132
  let w₃ : List ValidationWarning := if ¬inKorea then [.koreaBounds] else []
  let s₃ : List ValidationSuggestion := if ¬inKorea then [.recheckCoordinates] else []
  let tier : String × List ValidationWarning × List ValidationSuggestion :=
    match acc with
    | some a =>
        if a > 100 then ("low", [.lowAccuracy], [.remeasureGps])
        else if a > 20 then ("medium", [], [.accuracyGood])
        else ("high", [], [.accuracyExcellent])
    | none => ("high", [], [])
  let warnings := w₁ ++ w₂ ++ w₃ ++ tier.2.1
  { is_valid := warnings.isEmpty
    accuracy_meters := acc
    confidence_level := tier.1
    warnings := warnings
    suggestions := s₃ ++ tier.2.2 }

structure SimilarEntry where
  station : Station
  name_similarity : ℚ

inductive Recommendation where
  | singleNearby
  | multipleNearby
  | reviewNearby
  | similarName
  | reviewSimilar
  | noConflict
  | chooseAction
  | systemError
deriving Repr, DecidableEq

structure LocationDuplicateInfo where
  has_duplicates : Bool
  nearby_stations : List NearbyEntry
  similar_name_stations : List SimilarEntry
  total_nearby_count : ℕ
  search_radius_meters : ℚ
  recommendations : List Recommendation

/-- Source `LocationService._find_similar_name_stations`: empty target gives
no matches; skip stations already found nearby; a station's similarity is the
maximum of the name similarity and the similarities of its comma-split,
stripped aliases (when the alias field is truthy); keep similarities ≥ 0.7,
store them rounded to 3 decimals, sort stably descending by the stored value
and keep the top 10. -/
def findSimilarNameStations (db : List Station) (targetName : String)
    (excludeStations : List NearbyEntry) : List SimilarEntry :=
  if targetName.isEmpty then []
  else
    let excludeIds := excludeStations.map (fun e => e.station.station_id)
    let allStations := (searchStationsByName db "" 1 1000).1
    let sims := allStations.filterMap (fun s =>
      if excludeIds.contains s.station_id then none
      else
        let sim₀ := calculateSimilarity targetName s.station_name
        let sim :=
          match s.station_alias with
          | some a =>
              if a.isEmpty then sim₀
              else (splitOnComma a.toList).foldl
                (fun acc al =>
                  max acc (calculateSimilarity targetName (String.mk (pyStrip al))))
                sim₀
          | none => sim₀
        if sim ≥ mkRat 7 10 then some ⟨s, round3 sim⟩ else none)
    (sims.mergeSort (fun a b => decide (b.name_similarity ≤ a.name_similarity))).take 10

/-- Source `LocationService._generate_recommendations`: deterministic tags in
the source's append order. -/
def generateRecommendations (nearby : List NearbyEntry) (similar : List SimilarEntry) :
    List Recommendation :=
  (if !nearby.isEmpty then
    (if nearby.length = 1 then [.singleNearby] else [.multipleNearby]) ++ [.reviewNearby]
   else []) ++
  (if !similar.isEmpty then [.similarName, .reviewSimilar] else []) ++
  (if nearby.isEmpty && similar.isEmpty then [.noConflict] else []) ++
  (if !nearby.isEmpty || !similar.isEmpty then [.chooseAction] else [])

/-- Source `LocationService.check_location_duplicate` on a cold cache.  The
`try` block spans the repository reads; its outcome is passed in as an
`Except` value: `.ok` carries the fetched nearby rows and the station list
the similar-name scan reads, `.error` stands for any exception raised inside
the block, answered by the safe fallback report with the single cautionary
recommendation. -/
def checkLocationDuplicate (fetch : Except Unit (List NearbyEntry × List Station))
    (targetName : String) (searchRadius : ℚ) : LocationDuplicateInfo :=
  match fetch with
  | .ok (nearby, db) =>
      let similar := findSimilarNameStations db targetName nearby
      let recs := generateRecommendations nearby similar
      { has_duplicates := !nearby.isEmpty || !similar.isEmpty
        nearby_stations := nearby
        similar_name_stations := similar
        total_nearby_count := nearby.length
        search_radius_meters := searchRadius
        recommendations := recs }
  | .error _ =>
      { has_duplicates := false
        nearby_stations := []
        similar_name_stations := []
        total_nearby_count := 0
        search_radius_meters := searchRadius
        recommendations := [.systemError] }

/-! ## Cache, from `src/gps_inspection/utils/cache_utils.py`

`SimpleCache` holds an `OrderedDict` mapping keys to `(value, expire_time)`,
oldest first.  The state is modelled as that association list (key-unique by
the `OrderedDict` invariant) plus the configuration and the hit/miss
counters; `time.time()` is passed in explicitly. -/

structure CacheState (K V : Type) where
  entries : List (K × V × ℚ)
  max_size : ℕ := 1000
  default_ttl : ℚ := 300
  hits : ℕ := 0
  misses : ℕ := 0

/-- Deletion of a key from the `OrderedDict` (it holds at most one entry per
key). -/
def eraseKey {K V : Type} [DecidableEq K] (es : List (K × V × ℚ)) (k : K) :
    List (K × V × ℚ) :=
  es.eraseP (fun e => decide (e.1 = k))

/-- Source `SimpleCache.get`: miss on an absent key; on an expired key
(`time.time() > expire_time`), delete it and miss; on a hit, move the entry
to the most-recently-used end and return the value. -/
def cacheGet {K V : Type} [DecidableEq K] (st : CacheState K V) (now : ℚ) (k : K) :
    Option V × CacheState K V :=
  match st.entries.find? (fun e => decide (e.1 = k)) with
  | none => (none, { st with misses := st.misses + 1 })
  | some (_, v, expireTime) =>
      if now > expireTime then
        (none, { st with entries := eraseKey st.entries k, misses := st.misses + 1 })
      else
        (some v,
         { st with entries := eraseKey st.entries k ++ [(k, v, expireTime)],
                   hits := st.hits + 1 })

/-- The `while len(self._cache) > self.max_size:` eviction loop of
`SimpleCache.set`: repeatedly delete the oldest entry. -/
def evictLoop {α : Type} (maxSize : ℕ) : List α → List α
  | [] => []
  | e :: rest =>
      if (e :: rest).length > maxSize then evictLoop maxSize rest else e :: rest

/-- Source `SimpleCache.set`: expiry is `now + ttl` (the default TTL when
none is given); an existing key is updated in place and moved to the
most-recently-used end; a new key is appended and the eviction loop then
drops oldest entries while the size exceeds `max_size`. -/
def cacheSet {K V : Type} [DecidableEq K] (st : CacheState K V) (now : ℚ) (k : K)
    (v : V) (ttlSeconds : Option ℚ) : CacheState K V :=
  let ttl := ttlSeconds.getD st.default_ttl
  let expireTime := now + ttl
  if st.entries.any (fun e => decide (e.1 = k)) then
    { st with entries := eraseKey st.entries k ++ [(k, v, expireTime)] }
  else
    { st with entries := evictLoop st.max_size (st.entries ++ [(k, v, expireTime)]) }

/-! ## Test fixtures and spec-side definitions used by the claims -/

/-- Modelled from the spec (§4.4, claim C6's refinement comparison only):
the exact-match criterion as the spec words it — the station's name, or ANY
ONE of its comma-split aliases, equals the untrimmed query. -/
def specExactCriterion (q : String) (s : Station) : Bool :=
  s.station_name == q ||
  (match s.station_alias with
   | some a => (splitOnComma a.toList).any (fun al => al = q.toList)
   | none => false)

/-- Fixture: a station whose alias field is the comma-joined list "A,B". -/
def stationAliasAB : Station :=
  { station_id := "WS00001", station_name := "X", station_type := "기지국",
    latitude := 35, longitude := 129, inspector_id := "insp1",
    station_alias := some "A,B" }

/-- Fixture: a station named "A" with no alias. -/
def stationNameA : Station :=
  { station_id := "WS00002", station_name := "A", station_type := "기지국",
    latitude := 36, longitude := 128, inspector_id := "insp2" }

/-- Fixture: a station at latitude 90, longitude 45 (both truthy), name
"B". -/
def stationFar : Station :=
  { station_id := "WS00030", station_name := "B", station_type := "기지국",
    latitude := 90, longitude := 45, inspector_id := "insp3" }

/-- Fixture: a station whose name's chosung sequence and whose alias's
chosung sequence both equal "ㄱㄴ". -/
def stationGana : Station :=
  { station_id := "WS00010", station_name := "가나", station_type := "기지국",
    latitude := 35, longitude := 129, inspector_id := "insp1",
    station_alias := some "기노" }

/-! ## Theorems -/

/-! ### Levenshtein / similarity facts (claim C9) -/


theorem levCons_le (c₁ : Char) (t₁ : List Char)
    (f : List Char → Nat) (hf : ∀ l₂, f l₂ ≤ max t₁.length l₂.length) :
    ∀ l₂, levCons c₁ f l₂ ≤ max (t₁.length + 1) l₂.length := by
  intro l₂
  induction l₂ with
  | nil =>
    have := hf []
    simp only [levCons, List.length_nil] at *
    omega
  | cons c₂ t₂ ih =>
    rw [levCons]
    by_cases h : c₁ = c₂
    · rw [if_pos h]
      have := hf t₂
      simp only [List.length_cons] at *
      omega
    · rw [if_neg h]
      have h₁ := hf t₂
      have h₂ : min (f (c₂ :: t₂)) (min (levCons c₁ f t₂) (f t₂)) ≤ f t₂ :=
        le_trans (min_le_right _ _) (min_le_right _ _)
      simp only [List.length_cons] at *
      omega

theorem lev_le_max : ∀ l₁ l₂ : List Char, lev l₁ l₂ ≤ max l₁.length l₂.length := by
  intro l₁
  induction l₁ with
  | nil => intro l₂; simp [lev]
  | cons c₁ t₁ ih =>
    intro l₂
    rw [lev]
    simpa using levCons_le c₁ t₁ (lev t₁) ih l₂

theorem length_collapseWs_le (l : List Char) : (collapseWs l).length ≤ l.length := by
  induction l using collapseWs.induct with
  | case1 => simp [collapseWs]
  | case2 c h => simp [collapseWs, h]
  | case3 c h => simp [collapseWs, h]
  | case4 c₁ c₂ rest h ih =>
    rw [collapseWs, if_pos h]
    simp only [List.length_cons] at *
    omega
  | case5 c₁ c₂ rest h ih =>
    rw [collapseWs, if_neg h]
    simp only [List.length_cons] at *
    omega

theorem length_pyStrip_le (l : List Char) : (pyStrip l).length ≤ l.length := by
  unfold pyStrip
  have h₁ := (List.dropWhile_sublist (l := l) (p := pyIsSpace)).length_le
  have h₂ := (List.dropWhile_sublist (l := (l.dropWhile pyIsSpace).reverse)
    (p := pyIsSpace)).length_le
  simp only [List.length_reverse] at *
  omega

theorem length_normalizeText_le (s : String) : (normalizeText s).length ≤ s.length := by
  unfold normalizeText
  split
  · simp_all [String.isEmpty_iff]
  · rw [String.length_mk]
    have h₁ := List.length_filter_le isKeptByNormalize (collapseWs (pyStrip s.toList))
    have h₂ := length_collapseWs_le (pyStrip s.toList)
    have h₃ := length_pyStrip_le s.toList
    have h₄ : s.toList.length = s.length := String.length_data s
    omega

theorem length_pyLower (s : String) : (pyLower s).length = s.length := by
  unfold pyLower
  rw [String.length_mk, List.length_map]
  exact String.length_data s


theorem one_le_length_of_ne_empty (s : String) (h : s ≠ "") : 1 ≤ s.length := by
  cases s with
  | mk l =>
    cases l with
    | nil => exact absurd rfl h
    | cons c t => rw [String.length_mk]; simp

theorem simpleEditDistance_le_max (s₁ s₂ : String) :
    simpleEditDistance s₁ s₂ ≤ max s₁.length s₂.length := by
  unfold simpleEditDistance
  split
  · exact le_max_right _ _
  · split
    · exact le_max_left _ _
    · have h := lev_le_max (normalizeText (pyLower s₁)).toList (normalizeText (pyLower s₂)).toList
      have e₁ : (normalizeText (pyLower s₁)).toList.length = (normalizeText (pyLower s₁)).length :=
        String.length_data _
      have e₂ : (normalizeText (pyLower s₂)).toList.length = (normalizeText (pyLower s₂)).length :=
        String.length_data _
      have n₁ := length_normalizeText_le (pyLower s₁)
      have n₂ := length_normalizeText_le (pyLower s₂)
      rw [length_pyLower] at n₁
      rw [length_pyLower] at n₂
      refine le_trans h ?_
      rw [e₁, e₂]
      exact max_le_max n₁ n₂

/-- C9: `calculate_similarity` returns 1.0 when both inputs are empty and
otherwise `1 − editDistance/max(len a, len b)` clamped below at 0; the clamp
never fires (the edit distance never exceeds the longer raw length, because
lower-casing and normalization never lengthen a string), and the returned
value always lies in [0, 1]. -/
theorem c9_calculateSimilarity_clamped_in_unit_range (s₁ s₂ : String) :
    0 ≤ calculateSimilarity s₁ s₂ ∧ calculateSimilarity s₁ s₂ ≤ 1 ∧
    (s₁ = "" ∧ s₂ = "" → calculateSimilarity s₁ s₂ = 1) ∧
    (¬(s₁ = "" ∧ s₂ = "") →
      calculateSimilarity s₁ s₂ =
        max 0 (1 - (simpleEditDistance s₁ s₂ : ℚ) / ((max s₁.length s₂.length : ℕ) : ℚ))) := by
  by_cases hb : s₁ = "" ∧ s₂ = ""
  · obtain ⟨h₁, h₂⟩ := hb
    subst h₁; subst h₂
    norm_num [calculateSimilarity]
  · have hmax : 1 ≤ max s₁.length s₂.length := by
      rcases not_and_or.mp hb with h | h
      · exact le_trans (one_le_length_of_ne_empty s₁ h) (le_max_left _ _)
      · exact le_trans (one_le_length_of_ne_empty s₂ h) (le_max_right _ _)
    have hmaxQ : (0 : ℚ) < ((max s₁.length s₂.length : ℕ) : ℚ) := by
      exact_mod_cast Nat.lt_of_lt_of_le Nat.zero_lt_one hmax
    have hd : (simpleEditDistance s₁ s₂ : ℚ) ≤ ((max s₁.length s₂.length : ℕ) : ℚ) := by
      exact_mod_cast simpleEditDistance_le_max s₁ s₂
    have hdiv₁ : (simpleEditDistance s₁ s₂ : ℚ) / ((max s₁.length s₂.length : ℕ) : ℚ) ≤ 1 :=
      (div_le_one hmaxQ).mpr hd
    have hdiv₀ : 0 ≤ (simpleEditDistance s₁ s₂ : ℚ) / ((max s₁.length s₂.length : ℕ) : ℚ) :=
      div_nonneg (by positivity) (le_of_lt hmaxQ)
    have hval : calculateSimilarity s₁ s₂ =
        1 - (simpleEditDistance s₁ s₂ : ℚ) / ((max s₁.length s₂.length : ℕ) : ℚ) := by
      unfold calculateSimilarity
      have hb' : (s₁.isEmpty && s₂.isEmpty) = false := by
        rcases not_and_or.mp hb with h | h
        · have he : s₁.isEmpty = false :=
            Bool.eq_false_iff.mpr (fun hc => h ((String.isEmpty_iff s₁).mp hc))
          simp [he]
        · have he : s₂.isEmpty = false :=
            Bool.eq_false_iff.mpr (fun hc => h ((String.isEmpty_iff s₂).mp hc))
          simp [he]
      rw [hb']
      simp only [Bool.false_eq_true, if_false]
      have hne : ¬ (max s₁.length s₂.length = 0) := by omega
      rw [if_neg hne]
    refine ⟨?_, ?_, fun h => absurd h hb, fun _ => ?_⟩
    · rw [hval]; linarith
    · rw [hval]; linarith
    · rw [hval]
      exact (max_eq_right (by linarith)).symm



/-- C9 witness: the theorem applied at `"abc"`, `"abd"` and at the pair of
empty strings, with the hypotheses discharged by computation. -/
theorem c9_witness :
    (calculateSimilarity "abc" "abd" =
      max 0 (1 - (simpleEditDistance "abc" "abd" : ℚ) /
        ((max ("abc".length) ("abd".length) : ℕ) : ℚ))) ∧
    calculateSimilarity "" "" = 1 :=
  ⟨(c9_calculateSimilarity_clamped_in_unit_range "abc" "abd").2.2.2 (by decide),
   (c9_calculateSimilarity_clamped_in_unit_range "" "").2.2.1 ⟨rfl, rfl⟩⟩


/-! ### Location validation (claim C2) -/

/-- C2 counterexample: the coordinate (0, 0) has latitude in [-90, 90] and
longitude in [-180, 180] but lies outside the national bounding box; the
claim says `is_valid = true` there, yet `validate_location` answers the
bounding-box warning together with `is_valid = false` — because `is_valid`
is `len(warnings) == 0` and the box check appends a warning. -/
theorem c2_counterexample :
    ((-90 : ℚ) ≤ 0 ∧ (0 : ℚ) ≤ 90) ∧ ((-180 : ℚ) ≤ 0 ∧ (0 : ℚ) ≤ 180) ∧
    ¬((33 : ℚ) ≤ 0 ∧ (0 : ℚ) ≤ mkRat 386 10 ∧ mkRat 1245 10 ≤ 0 ∧ (0 : ℚ) ≤ 132) ∧
    (validateLocation 0 0 none).warnings = [ValidationWarning.koreaBounds] ∧
    (validateLocation 0 0 none).is_valid = false := by
  decide

/-- C2 amended: for every in-range coordinate outside the national bounding
box, `validate_location` answers a bounding-box warning AND `is_valid =
false`: the box check is warning-only in the sense that it only appends a
warning, but since `is_valid` is defined as "no warnings at all", that
warning does on its own force `is_valid = false`, exactly like an
out-of-range latitude or longitude. -/
theorem c2_amended (lat lon : ℚ) (acc : Option ℚ)
    (h₁ : -90 ≤ lat ∧ lat ≤ 90) (h₂ : -180 ≤ lon ∧ lon ≤ 180)
    (h₃ : ¬(33 ≤ lat ∧ lat ≤ mkRat 386 10 ∧ mkRat 1245 10 ≤ lon ∧ lon ≤ 132)) :
    ValidationWarning.koreaBounds ∈ (validateLocation lat lon acc).warnings ∧
    (validateLocation lat lon acc).is_valid = false := by
  rcases acc with _ | a <;>
    simp [validateLocation, h₁.1, h₁.2, h₂.1, h₂.2, h₃]

/-- C2 witness: the amended theorem applied at (0, 0) with no accuracy. -/
theorem c2_witness :
    ValidationWarning.koreaBounds ∈ (validateLocation 0 0 none).warnings ∧
    (validateLocation 0 0 none).is_valid = false :=
  c2_amended 0 0 none (by norm_num) (by norm_num) (by norm_num)

/-! ### Duplicate check report (claim C7) -/

/-- C7: `check_location_duplicate` is total (it never raises: the modelled
`Except` input covers every outcome of its `try` block); every report it
returns satisfies `hasDuplicates ↔ (nearby nonempty or similar-name list
nonempty)`, and on internal failure the report has `hasDuplicates = false`,
empty lists, and the single cautionary recommendation. -/
theorem c7_report_invariant_and_safe_failure
    (fetch : Except Unit (List NearbyEntry × List Station))
    (name : String) (radius : ℚ) :
    ((checkLocationDuplicate fetch name radius).has_duplicates = true ↔
      (0 < (checkLocationDuplicate fetch name radius).nearby_stations.length ∨
       0 < (checkLocationDuplicate fetch name radius).similar_name_stations.length)) ∧
    (∀ e : Unit, fetch = .error e →
      (checkLocationDuplicate fetch name radius).has_duplicates = false ∧
      (checkLocationDuplicate fetch name radius).nearby_stations = [] ∧
      (checkLocationDuplicate fetch name radius).similar_name_stations = [] ∧
      (checkLocationDuplicate fetch name radius).recommendations =
        [Recommendation.systemError]) := by
  cases fetch with
  | error e => simp [checkLocationDuplicate]
  | ok val =>
    obtain ⟨nearby, db⟩ := val
    constructor
    · simp [checkLocationDuplicate, List.isEmpty_iff, List.length_pos]
    · intro e he
      exact absurd he (by simp)

/-- C7 witness: the theorem applied to a failing fetch. -/
theorem c7_witness :
    (checkLocationDuplicate (Except.error ()) "부산항" 100).has_duplicates = false ∧
    (checkLocationDuplicate (Except.error ()) "부산항" 100).recommendations =
      [Recommendation.systemError] :=
  ⟨((c7_report_invariant_and_safe_failure (Except.error ()) "부산항" 100).2 () rfl).1,
   ((c7_report_invariant_and_safe_failure (Except.error ()) "부산항" 100).2 () rfl).2.2.2⟩


/-! ### Cache facts (claim C4) -/


theorem find?_eraseKey_eq_none {K V : Type} [DecidableEq K]
    (es : List (K × V × ℚ)) (k : K) (hnd : (es.map (fun e => e.1)).Nodup) :
    (eraseKey es k).find? (fun e => decide (e.1 = k)) = none := by
  induction es with
  | nil => simp [eraseKey]
  | cons e es ih =>
    simp only [List.map_cons, List.nodup_cons] at hnd
    by_cases hk : e.1 = k
    · have hd : (decide (e.1 = k)) = true := by simp [hk]
      rw [eraseKey, List.eraseP_cons, hd, cond_true]
      rw [List.find?_eq_none]
      intro x hx
      simp only [decide_eq_true_eq]
      intro hxk
      exact hnd.1 (by rw [hk, ← hxk]; exact List.mem_map_of_mem _ hx)
    · have hd : (decide (e.1 = k)) = false := by simp [hk]
      rw [eraseKey, List.eraseP_cons, hd, cond_false]
      rw [List.find?_cons_of_neg _ (by simp [hk])]
      exact ih hnd.2

theorem evictLoop_eq_drop {α : Type} (m : ℕ) (l : List α) :
    evictLoop m l = l.drop (l.length - m) := by
  induction l with
  | nil => simp [evictLoop]
  | cons e rest ih =>
    rw [evictLoop]
    by_cases h : (e :: rest).length > m
    · rw [if_pos h, ih]
      have h2 : (e :: rest).length - m = (rest.length - m) + 1 := by
        simp only [List.length_cons] at h ⊢; omega
      rw [h2, List.drop_succ_cons]
    · rw [if_neg h]
      have h2 : (e :: rest).length - m = 0 := by
        simp only [List.length_cons] at h ⊢; omega
      rw [h2, List.drop_zero]


theorem cacheSet_entries_eq {K V : Type} [DecidableEq K] (st : CacheState K V)
    (now : ℚ) (k : K) (v : V) (ttlOpt : Option ℚ) (hmax : 1 ≤ st.max_size) :
    (cacheSet st now k v ttlOpt).entries =
      (if st.entries.any (fun e => decide (e.1 = k)) then eraseKey st.entries k
       else st.entries.drop (st.entries.length + 1 - st.max_size)) ++
      [(k, v, now + ttlOpt.getD st.default_ttl)] := by
  by_cases hin : st.entries.any (fun e => decide (e.1 = k))
  · simp only [cacheSet, hin, if_true, if_pos]
  · simp only [cacheSet, hin, Bool.false_eq_true, if_false]
    rw [evictLoop_eq_drop]
    have hlen : (st.entries ++ [(k, v, now + ttlOpt.getD st.default_ttl)]).length =
        st.entries.length + 1 := by simp
    rw [hlen]
    have hle : st.entries.length + 1 - st.max_size ≤ st.entries.length := by omega
    rw [List.drop_append_of_le_length hle]

theorem not_mem_keys_of_any_eq_false {K V : Type} [DecidableEq K]
    {es : List (K × V × ℚ)} {k : K}
    (hin : es.any (fun e => decide (e.1 = k)) = false) :
    ∀ x ∈ es, ¬(x.1 = k) := by
  intro x hx hxk
  have : es.any (fun e => decide (e.1 = k)) = true :=
    List.any_eq_true.mpr ⟨x, hx, by simp [hxk]⟩
  rw [hin] at this
  exact Bool.false_ne_true this

theorem find?_cacheSet {K V : Type} [DecidableEq K] (st : CacheState K V)
    (now : ℚ) (k : K) (v : V) (ttlOpt : Option ℚ)
    (hnd : (st.entries.map (fun e => e.1)).Nodup) (hmax : 1 ≤ st.max_size) :
    (cacheSet st now k v ttlOpt).entries.find? (fun e => decide (e.1 = k)) =
      some (k, v, now + ttlOpt.getD st.default_ttl) := by
  rw [cacheSet_entries_eq st now k v ttlOpt hmax, List.find?_append]
  have hpre : (if st.entries.any (fun e => decide (e.1 = k)) then eraseKey st.entries k
      else st.entries.drop (st.entries.length + 1 - st.max_size)).find?
        (fun e => decide (e.1 = k)) = none := by
    by_cases hin : st.entries.any (fun e => decide (e.1 = k))
    · rw [if_pos hin]
      exact find?_eraseKey_eq_none st.entries k hnd
    · rw [if_neg hin]
      rw [List.find?_eq_none]
      intro x hx
      simp only [decide_eq_true_eq]
      exact not_mem_keys_of_any_eq_false (Bool.eq_false_iff.mpr hin) x
        (List.mem_of_mem_drop hx)
  rw [hpre]
  simp [List.find?_cons_of_pos]

theorem cacheSet_keysNodup {K V : Type} [DecidableEq K] (st : CacheState K V)
    (now : ℚ) (k : K) (v : V) (ttlOpt : Option ℚ)
    (hnd : (st.entries.map (fun e => e.1)).Nodup) (hmax : 1 ≤ st.max_size) :
    ((cacheSet st now k v ttlOpt).entries.map (fun e => e.1)).Nodup := by
  rw [cacheSet_entries_eq st now k v ttlOpt hmax, List.map_append]
  rw [List.nodup_append]
  by_cases hin : st.entries.any (fun e => decide (e.1 = k))
  · rw [if_pos hin] at *
    refine ⟨((List.eraseP_sublist st.entries).map (fun e => e.1)).nodup hnd, by simp, ?_⟩
    intro a ha hb
    simp only [List.map_cons, List.map_nil, List.mem_singleton] at hb
    rw [hb] at ha
    obtain ⟨e, he, hek⟩ := List.mem_map.mp ha
    have hnone := find?_eraseKey_eq_none st.entries k hnd
    rw [List.find?_eq_none] at hnone
    exact hnone e he (by simp [hek])
  · rw [if_neg hin] at *
    refine ⟨((List.drop_sublist (st.entries.length + 1 - st.max_size) st.entries).map
      (fun e => e.1)).nodup hnd, by simp, ?_⟩
    intro a ha hb
    simp only [List.map_cons, List.map_nil, List.mem_singleton] at hb
    rw [hb] at ha
    obtain ⟨e, he, hek⟩ := List.mem_map.mp ha
    exact not_mem_keys_of_any_eq_false (Bool.eq_false_iff.mpr hin) e
      (List.mem_of_mem_drop he) hek


/-- C4: for a key-unique cache state with positive capacity and a
non-negative TTL: immediately after `set(k,v)`, `get(k)` returns `v`; at any
time strictly after the entry's expiry, `get(k)` misses and removes the
entry; inserting a new key at capacity evicts exactly the maintained order's
oldest member; after any `set` or `get` the size stays within capacity; and
both a fresh `get` hit and a `set` of an existing key move the key to the
most-recently-used end. -/
theorem c4_cache_roundtrip_ttl_lru {K V : Type} [DecidableEq K]
    (st : CacheState K V) (now : ℚ) (k : K) (v : V) (ttlOpt : Option ℚ)
    (hnd : (st.entries.map (fun e => e.1)).Nodup)
    (hmax : 1 ≤ st.max_size)
    (httl : 0 ≤ ttlOpt.getD st.default_ttl) :
    (cacheGet (cacheSet st now k v ttlOpt) now k).1 = some v ∧
    (∀ now', now + ttlOpt.getD st.default_ttl < now' →
      (cacheGet (cacheSet st now k v ttlOpt) now' k).1 = none ∧
      (cacheGet (cacheSet st now k v ttlOpt) now' k).2.entries.find?
        (fun e => decide (e.1 = k)) = none) ∧
    (st.entries.length = st.max_size →
      st.entries.any (fun e => decide (e.1 = k)) = false →
      (cacheSet st now k v ttlOpt).entries =
        st.entries.tail ++ [(k, v, now + ttlOpt.getD st.default_ttl)]) ∧
    (st.entries.length ≤ st.max_size →
      (cacheSet st now k v ttlOpt).entries.length ≤ st.max_size ∧
      (cacheGet st now k).2.entries.length ≤ st.max_size) ∧
    (∀ v' exp, st.entries.find? (fun e => decide (e.1 = k)) = some (k, v', exp) →
      ¬(now > exp) →
      (cacheGet st now k).2.entries = eraseKey st.entries k ++ [(k, v', exp)]) ∧
    (st.entries.any (fun e => decide (e.1 = k)) = true →
      (cacheSet st now k v ttlOpt).entries =
        eraseKey st.entries k ++ [(k, v, now + ttlOpt.getD st.default_ttl)]) := by
  have hfind := find?_cacheSet st now k v ttlOpt hnd hmax
  have hnd' := cacheSet_keysNodup st now k v ttlOpt hnd hmax
  refine ⟨?_, ?_, ?_, ?_, ?_, ?_⟩
  · -- (a) immediate read-back
    simp only [cacheGet, hfind]
    rw [if_neg (by push_neg; linarith)]
  · -- (b) expiry
    intro now' hlt
    simp only [cacheGet, hfind]
    rw [if_pos (by linarith)]
    exact ⟨rfl, find?_eraseKey_eq_none _ k hnd'⟩
  · -- (c) LRU eviction of the oldest entry
    intro hlen hin
    rw [cacheSet_entries_eq st now k v ttlOpt hmax, if_neg (by simp [hin])]
    have h1 : st.entries.length + 1 - st.max_size = 1 := by omega
    rw [h1, List.drop_one]
  · -- (d) capacity invariant
    intro hlen
    constructor
    · rw [cacheSet_entries_eq st now k v ttlOpt hmax]
      by_cases hin : st.entries.any (fun e => decide (e.1 = k))
      · rw [if_pos hin]
        obtain ⟨y, hy, hpy⟩ := List.any_eq_true.mp hin
        have := List.length_eraseP_add_one (p := fun e => decide (e.1 = k)) hy hpy
        simp only [List.length_append, List.length_cons, List.length_nil]
        unfold eraseKey
        omega
      · rw [if_neg hin]
        simp only [List.length_append, List.length_drop, List.length_cons,
          List.length_nil]
        omega
    · cases hfind0 : st.entries.find? (fun e => decide (e.1 = k)) with
      | none => simpa [cacheGet, hfind0] using hlen
      | some e =>
        obtain ⟨k', v', exp⟩ := e
        simp only [cacheGet, hfind0]
        by_cases hexp : now > exp
        · rw [if_pos hexp]
          have := (List.eraseP_sublist (p := fun e => decide (e.1 = k)) st.entries).length_le
          unfold eraseKey
          simp only []
          omega
        · rw [if_neg hexp]
          have hmem := List.mem_of_find?_eq_some hfind0
          have hpred := List.find?_some hfind0
          have := List.length_eraseP_add_one (p := fun e => decide (e.1 = k)) hmem hpred
          simp only [List.length_append, List.length_cons, List.length_nil]
          unfold eraseKey
          omega
  · -- (e) get promotes a fresh hit
    intro v' exp hf hexp
    simp only [cacheGet, hf]
    rw [if_neg hexp]
  · -- (f) set promotes an updated key
    intro hin
    rw [cacheSet_entries_eq st now k v ttlOpt hmax, if_pos hin]


/-- C4 witness: a one-slot cache holding key 1; setting key 2 at time 0
evicts key 1 and an immediate get returns the new value. -/
theorem c4_witness :
    (cacheGet (cacheSet (⟨[(1, 10, 100)], 1, 300, 0, 0⟩ : CacheState ℕ ℕ) 0 2 20 none) 0 2).1 =
      some 20 ∧
    (cacheSet (⟨[(1, 10, 100)], 1, 300, 0, 0⟩ : CacheState ℕ ℕ) 0 2 20 none).entries =
      [(2, 20, 300)] := by
  have h := c4_cache_roundtrip_ttl_lru (K := ℕ) (V := ℕ)
    ⟨[(1, 10, 100)], 1, 300, 0, 0⟩ 0 2 20 none (by decide) (by decide) (by decide)
  refine ⟨h.1, ?_⟩
  have h3 := h.2.2.1 (by decide) (by decide)
  simpa using h3



/-! ### Search pipeline: duplicated chosung hit (claim C10) -/

/-- C10: a concrete input on which search returns the same station twice.
The query "ㄱㄴ" is an initial-consonant query; station "가나" (alias
"기노") matches the chosung criterion through its name AND through its
alias, so the chosung stage appends it twice; deduplication only removes ids
matched by EARLIER stages, so both copies — tag "chosung", score 0.6 —
survive into the returned page, and the total counts both. -/
theorem c10_chosung_double_hit :
    (searchStations [stationGana] "ㄱㄴ" none 1 10).1.map
        (fun e => (e.station.station_id, e.relevance_score, e.match_type)) =
      [("WS00010", mkRat 6 10, "chosung"), ("WS00010", mkRat 6 10, "chosung")] ∧
    (searchStations [stationGana] "ㄱㄴ" none 1 10).2 = 2 := by
  have hm : mergedResults [stationGana] "ㄱㄴ" =
      [(stationGana, mkRat 6 10, "chosung"), (stationGana, mkRat 6 10, "chosung")] := by
    decide
  have ht : toSearchResults none (mergedResults [stationGana] "ㄱㄴ") =
      [⟨stationGana, mkRat 6 10, "chosung", none⟩,
       ⟨stationGana, mkRat 6 10, "chosung", none⟩] := by
    rw [hm]
    simp [toSearchResults, attachedDistance]
  have hs : sortResults none (toSearchResults none (mergedResults [stationGana] "ㄱㄴ")) =
      [⟨stationGana, mkRat 6 10, "chosung", none⟩,
       ⟨stationGana, mkRat 6 10, "chosung", none⟩] := by
    rw [ht]
    show List.mergeSort _ leScore = _
    rw [List.mergeSort_of_sorted]
    refine List.Pairwise.cons ?_ (List.Pairwise.cons (by simp) List.Pairwise.nil)
    intro b hb
    rw [List.mem_singleton.mp hb]
    decide
  have hq : ((String.mk (pyStrip "ㄱㄴ".toList)).isEmpty : Bool) = false := by decide
  unfold searchStations
  rw [if_neg (by rw [hq]; exact Bool.false_ne_true)]
  rw [hs]
  constructor
  · show ((pySlice _ ((1 - 1) * 10) ((1 - 1) * 10 + 10)).map _) = _
    decide
  · decide


/-! ### Exact-stage characterisation (claim C6) and stage precedence (claim C5) -/

theorem searchStationsByName_firstPage (db : List Station) (q : String)
    (hlen : db.length ≤ 1000) :
    (searchStationsByName db q 1 1000).1 = db.filter (likeNameOrAlias q) := by
  unfold searchStationsByName
  have h1 : (db.filter (likeNameOrAlias q)).length ≤ 1000 :=
    le_trans (List.length_filter_le _ _) hlen
  simp [List.take_of_length_le h1]

theorem like_of_exactCriterion {q : String} {s : Station}
    (h : exactCriterion q s = true) : likeNameOrAlias q s = true := by
  unfold exactCriterion at h
  unfold likeNameOrAlias strContains
  simp only [Bool.or_eq_true] at h
  rcases h with h₁ | h₂
  · simp only [Bool.or_eq_true]; left
    have hn : s.station_name = q := by simpa using h₁
    rw [hn]
    simp [List.infix_rfl]
  · simp only [Bool.or_eq_true]; right
    cases ha : s.station_alias with
    | none => rw [ha] at h₂; simp at h₂
    | some a =>
      rw [ha] at h₂
      simp only [Bool.and_eq_true] at h₂
      have hq : a = q := by simpa using h₂.2
      rw [hq]
      simp [List.infix_rfl]

theorem mem_exactMatchSearch {db : List Station} {q : String} {s : Station}
    (hlen : db.length ≤ 1000) :
    s ∈ exactMatchSearch db q ↔ s ∈ db ∧ exactCriterion q s = true := by
  unfold exactMatchSearch
  rw [searchStationsByName_firstPage db q hlen, List.mem_filter, List.mem_filter]
  constructor
  · rintro ⟨⟨hdb, _⟩, hc⟩; exact ⟨hdb, hc⟩
  · rintro ⟨hdb, hc⟩; exact ⟨⟨hdb, like_of_exactCriterion hc⟩, hc⟩

/-- C6 counterexample: for the station with alias field "A,B" and the query
"A", the spec-side criterion (any comma-split alias equals the query) holds,
yet the exact stage matches nothing: the source compares the WHOLE alias
field for equality and never splits it. -/
theorem c6_counterexample :
    specExactCriterion "A" stationAliasAB = true ∧
    exactMatchSearch [stationAliasAB] "A" = [] := by decide

/-- C6 amended: over a repository of at most 1000 stations (the stage's
scan cap), the exact stage matches a station if and only if the station's
name equals the untrimmed query, or its ENTIRE alias field is nonempty and
equals the untrimmed query (not any comma-split component). -/
theorem c6_amended (db : List Station) (q : String) (s : Station)
    (hlen : db.length ≤ 1000) :
    s ∈ exactMatchSearch db q ↔
      (s ∈ db ∧ (s.station_name = q ∨
        (∃ a, s.station_alias = some a ∧ a ≠ "" ∧ a = q))) := by
  rw [mem_exactMatchSearch hlen]
  have hcrit : exactCriterion q s = true ↔
      (s.station_name = q ∨ (∃ a, s.station_alias = some a ∧ a ≠ "" ∧ a = q)) := by
    unfold exactCriterion
    cases ha : s.station_alias with
    | none => simp [ha]
    | some a => simp [ha, Bool.eq_false_iff, String.isEmpty_iff]
  rw [hcrit]

/-- C6 witness: the amended theorem applied to a one-station repository
whose name is the query. -/
theorem c6_witness :
    stationNameA ∈ exactMatchSearch [stationNameA] "A" :=
  (c6_amended [stationNameA] "A" stationNameA (by decide)).mpr ⟨by simp, Or.inl rfl⟩



/-! ### Pagination (claim C8) -/

theorem pySlice_nonneg {α : Type} (l : List α) (a b : ℤ) (ha : 0 ≤ a) (hb : 0 ≤ b) :
    pySlice l a (a + b) = (l.drop a.toNat).take b.toNat := by
  unfold pySlice pySliceIdx
  rw [if_neg (by omega), if_neg (by omega)]
  have h₁ : (min (max (a + b) 0) (l.length : ℤ)).toNat = min (a.toNat + b.toNat) l.length := by
    omega
  have h₂ : (min (max a 0) (l.length : ℤ)).toNat = min a.toNat l.length := by
    omega
  rw [h₁, h₂]
  by_cases hc : a.toNat ≤ l.length
  · rw [min_eq_left hc, List.drop_take]
    rw [List.take_eq_take]
    have hdl : (List.drop a.toNat l).length = l.length - a.toNat := List.length_drop _ _
    rw [hdl]
    omega
  · rw [min_eq_right (le_of_not_le hc)]
    rw [List.drop_eq_nil_of_le (by rw [List.length_take]; omega)]
    rw [List.drop_eq_nil_of_le (by omega), List.take_nil]

/-- C8 counterexample: the claim says a zero or negative page is clamped to
page 1.  The code does not clamp: `page = 0` makes `start_idx = -per_page`,
`end_idx = 0`, and the Python slice `[-10:0]` over a 1-element result list
is empty — while page 1 returns the element.  The pre-pagination total is
still 1. -/
theorem c8_counterexample :
    (searchStations [stationNameA] "A" none 0 10).1.length = 0 ∧
    (searchStations [stationNameA] "A" none 0 10).2 = 1 ∧
    (searchStations [stationNameA] "A" none 1 10).1.length = 1 := by
  have hm : mergedResults [stationNameA] "A" = [(stationNameA, 1, "exact")] := by decide
  have ht : toSearchResults none (mergedResults [stationNameA] "A") =
      [⟨stationNameA, 1, "exact", none⟩] := by
    rw [hm]
    simp [toSearchResults, attachedDistance]
  have hs : sortResults none (toSearchResults none (mergedResults [stationNameA] "A")) =
      [⟨stationNameA, 1, "exact", none⟩] := by
    rw [ht]
    show List.mergeSort _ leScore = _
    simp
  unfold searchStations
  rw [if_neg (by decide)]
  rw [hs]
  refine ⟨by decide, by decide, by decide⟩

/-- C8 amended: pagination is 1-based; for `page ≥ 1` and `per_page ≥ 0`
the returned window is the slice of the fully sorted merged results from
`(page-1)*per_page` to `page*per_page`, and the returned total is the
pre-pagination count of all merged results.  Zero or negative pages are NOT
clamped — they fall through to Python slice semantics (see the
counterexample). -/
theorem c8_amended (db : List Station) (q : String) (loc : Option (ℚ × ℚ))
    (page per_page : ℤ) (hp : 1 ≤ page) (hpp : 0 ≤ per_page)
    (hq : (String.mk (pyStrip q.toList)).isEmpty = false) :
    (searchStations db q loc page per_page).1 =
      ((sortResults loc (toSearchResults loc (mergedResults db q))).drop
        ((page - 1) * per_page).toNat).take per_page.toNat ∧
    (searchStations db q loc page per_page).2 = (mergedResults db q).length := by
  unfold searchStations
  rw [if_neg (by rw [hq]; exact Bool.false_ne_true)]
  constructor
  · exact pySlice_nonneg _ ((page - 1) * per_page) per_page
      (mul_nonneg (by omega) hpp) hpp
  · show (sortResults loc (toSearchResults loc (mergedResults db q))).length = _
    cases loc with
    | none => simp [sortResults, toSearchResults]
    | some u => simp [sortResults, toSearchResults]

/-- C8 witness: the amended theorem applied at page 1, page size 10, over a
one-station repository. -/
theorem c8_witness :
    (searchStations [stationNameA] "A" none 1 10).1 =
      ((sortResults none (toSearchResults none (mergedResults [stationNameA] "A"))).drop
        (((1 : ℤ) - 1) * 10).toNat).take (10 : ℤ).toNat ∧
    (searchStations [stationNameA] "A" none 1 10).2 =
      (mergedResults [stationNameA] "A").length :=
  c8_amended [stationNameA] "A" none 1 10 (by norm_num) (by norm_num) (by decide)


/-! ### Stage precedence (claim C5) -/

theorem countP_id_eq_one_of_nodup {db : List Station} {s : Station}
    (hnd : (db.map (fun t => t.station_id)).Nodup) (hmem : s ∈ db) :
    db.countP (fun t => decide (t.station_id = s.station_id)) = 1 := by
  induction db with
  | nil => cases hmem
  | cons head tail ih =>
    simp only [List.map_cons, List.nodup_cons] at hnd
    rw [List.countP_cons]
    rcases List.mem_cons.mp hmem with heq | htail
    · rw [if_pos (by simp [heq])]
      have hzero : tail.countP (fun t => decide (t.station_id = s.station_id)) = 0 := by
        rw [List.countP_eq_zero]
        intro t ht
        simp only [decide_eq_true_eq]
        intro hid
        refine absurd ?_ hnd.1
        rw [← heq, ← hid]
        exact List.mem_map_of_mem _ ht
      omega
    · rw [if_neg (by
        simp only [decide_eq_true_eq]
        intro hid
        exact hnd.1 (hid ▸ List.mem_map_of_mem _ htail))]
      simpa using ih hnd.2 htail

theorem sid_mem_stationIds_exact {db : List Station} {q : String} {s : Station}
    (hs : s ∈ exactMatchSearch db q) :
    s.station_id ∈ stationIds ((exactMatchSearch db q).map (fun t => (t, (1 : ℚ), "exact"))) := by
  unfold stationIds
  simp only [List.map_map]
  exact List.mem_map.mpr ⟨s, hs, rfl⟩


theorem exactCriterion_iff (q : String) (s : Station) :
    exactCriterion q s = true ↔
      (s.station_name = q ∨ (∃ a, s.station_alias = some a ∧ a ≠ "" ∧ a = q)) := by
  unfold exactCriterion
  cases ha : s.station_alias with
  | none => simp [ha]
  | some a => simp [ha, Bool.eq_false_iff, String.isEmpty_iff]

theorem not_id_eq_of_mem_excluded {ids : List String} {sid : String}
    (hsid : sid ∈ ids) {X : List Station} :
    ∀ t ∈ X.filter (fun t => !ids.contains t.station_id), ¬(t.station_id = sid) := by
  intro t ht hid
  have hcond := (List.mem_filter.mp ht).2
  rw [hid] at hcond
  simp only [Bool.not_eq_true'] at hcond
  have hmem : ids.contains sid = true := List.elem_eq_true_of_mem hsid
  rw [hcond] at hmem
  exact Bool.false_ne_true hmem

theorem exactMatchSearch_sublist (db : List Station) (q : String) :
    (exactMatchSearch db q).Sublist db := by
  unfold exactMatchSearch searchStationsByName
  refine (List.filter_sublist _).trans ?_
  refine (List.take_sublist _ _).trans ?_
  refine (List.drop_sublist _ _).trans ?_
  exact List.filter_sublist _

theorem stationIds_append (l₁ l₂ : List (Station × ℚ × String)) :
    stationIds (l₁ ++ l₂) = stationIds l₁ ++ stationIds l₂ := by
  unfold stationIds
  exact List.map_append _ _ _

/-- C5: a station of the repository (ids unique, size within the stages'
1000-row scan cap) that satisfies both the exact-match criterion and the
fuzzy-match criterion occurs exactly once in the full sorted result
sequence, tagged "exact" with relevance score 1.0: every later stage
excludes the station ids already matched by an earlier stage. -/
theorem c5_exact_and_fuzzy_appears_once_tagged_exact (db : List Station) (q : String)
    (s : Station) (loc : Option (ℚ × ℚ))
    (hnd : (db.map (fun t => t.station_id)).Nodup)
    (hmem : s ∈ db) (hlen : db.length ≤ 1000)
    (hex : s.station_name = q ∨ (∃ a, s.station_alias = some a ∧ a ≠ "" ∧ a = q))
    (hfz : simpleEditDistance q s.station_name ≤ max 1 (q.length / 3) ∨
      (∃ a, s.station_alias = some a ∧ a ≠ "" ∧
        simpleEditDistance q a ≤ max 1 (q.length / 3))) :
    ((sortResults loc (toSearchResults loc (mergedResults db q))).countP
      (fun e => decide (e.station.station_id = s.station_id))) = 1 ∧
    (∀ e ∈ sortResults loc (toSearchResults loc (mergedResults db q)),
      e.station.station_id = s.station_id →
      e.relevance_score = 1 ∧ e.match_type = "exact") := by
  have hexB : exactCriterion q s = true := (exactCriterion_iff q s).mpr hex
  have hsx : s ∈ exactMatchSearch db q := (mem_exactMatchSearch hlen).mpr ⟨hmem, hexB⟩
  have hperm : List.Perm (sortResults loc (toSearchResults loc (mergedResults db q)))
      (toSearchResults loc (mergedResults db q)) := by
    cases loc with
    | none => exact List.mergeSort_perm _ _
    | some u => exact List.mergeSort_perm _ _
  have hids₁ : s.station_id ∈ stationIds ((exactMatchSearch db q).map
      (fun t => (t, (1 : ℚ), "exact"))) := sid_mem_stationIds_exact hsx
  have h1 : ((exactMatchSearch db q).map (fun t => (t, (1 : ℚ), "exact"))).countP
      (fun r => decide (r.1.station_id = s.station_id)) = 1 := by
    rw [List.countP_map]
    refine Nat.le_antisymm ?_ ?_
    · calc (exactMatchSearch db q).countP _
          ≤ db.countP (fun t => decide (t.station_id = s.station_id)) :=
            (exactMatchSearch_sublist db q).countP_le _
        _ = 1 := countP_id_eq_one_of_nodup hnd hmem
    · exact List.countP_pos_iff.mpr ⟨s, hsx, by simp⟩
  have hzero : ∀ (ids : List String), s.station_id ∈ ids →
      ∀ (X : List Station) (sc : ℚ) (tag : String),
      ((X.filter (fun t => !ids.contains t.station_id)).map
        (fun t => (t, sc, tag))).countP
          (fun r => decide (r.1.station_id = s.station_id)) = 0 := by
    intro ids hsid X sc tag
    rw [List.countP_map, List.countP_eq_zero]
    intro t ht
    simp only [Function.comp_apply, decide_eq_true_eq]
    exact not_id_eq_of_mem_excluded hsid t ht
  constructor
  · rw [hperm.countP_eq]
    unfold toSearchResults
    rw [List.countP_map]
    show (mergedResults db q).countP (fun r => decide (r.1.station_id = s.station_id)) = 1
    unfold mergedResults
    simp only [List.countP_append]
    rw [h1, hzero _ hids₁ _ _ _,
      hzero _ (by rw [stationIds_append]; exact List.mem_append_left _ hids₁) _ _ _,
      hzero _ (by rw [stationIds_append, stationIds_append]
                  exact List.mem_append_left _ (List.mem_append_left _ hids₁)) _ _ _]
  · intro e he hid
    have he' : e ∈ toSearchResults loc (mergedResults db q) := hperm.mem_iff.mp he
    unfold toSearchResults at he'
    obtain ⟨r, hr, rfl⟩ := List.mem_map.mp he'
    simp only at hid
    unfold mergedResults at hr
    simp only [List.mem_append] at hr
    rcases hr with ((hA | hB) | hC) | hD
    · obtain ⟨t, _, rfl⟩ := List.mem_map.mp hA
      exact ⟨rfl, rfl⟩
    · obtain ⟨t, ht, rfl⟩ := List.mem_map.mp hB
      exact absurd hid (not_id_eq_of_mem_excluded hids₁ t ht)
    · obtain ⟨t, ht, rfl⟩ := List.mem_map.mp hC
      exact absurd hid (not_id_eq_of_mem_excluded
        (by rw [stationIds_append]; exact List.mem_append_left _ hids₁) t ht)
    · obtain ⟨t, ht, rfl⟩ := List.mem_map.mp hD
      exact absurd hid (not_id_eq_of_mem_excluded
        (by rw [stationIds_append, stationIds_append]
            exact List.mem_append_left _ (List.mem_append_left _ hids₁)) t ht)


/-- C5 witness: a one-station repository whose name equals the query; the
station matches the exact criterion and the fuzzy criterion (distance 0). -/
theorem c5_witness :
    ((sortResults none (toSearchResults none (mergedResults [stationNameA] "A"))).countP
      (fun e => decide (e.station.station_id = stationNameA.station_id))) = 1 ∧
    (∀ e ∈ sortResults none (toSearchResults none (mergedResults [stationNameA] "A")),
      e.station.station_id = stationNameA.station_id →
      e.relevance_score = 1 ∧ e.match_type = "exact") :=
  c5_exact_and_fuzzy_appears_once_tagged_exact [stationNameA] "A" stationNameA none
    (by decide) (by decide) (by decide) (Or.inl rfl) (Or.inl (by decide))



/-! ### Haversine distance attachment (claim C1) and radius filter (claim C3) -/

/-- The source formula (`GeoUtils.haversine_distance`) is exactly the spec's
haversine with Earth radius 6,371,000 m. -/
theorem haversineDistance_eq_spec (lat₁ lon₁ lat₂ lon₂ : ℚ) :
    haversineDistance lat₁ lon₁ lat₂ lon₂ = haversineDistanceMetersSpec lat₁ lon₁ lat₂ lon₂ :=
  rfl

theorem haversineDistance_eval :
    haversineDistance 0 0 90 45 = 6371000 * (Real.pi / 2) := by
  show (6371000 : ℝ) * (2 * pyAtan2
      (Real.sqrt (Real.sin (radians (((90:ℚ):ℝ) - ((0:ℚ):ℝ)) / 2) ^ 2 +
        Real.cos (radians ((0:ℚ):ℝ)) * Real.cos (radians ((90:ℚ):ℝ)) *
          Real.sin (radians (((45:ℚ):ℝ) - ((0:ℚ):ℝ)) / 2) ^ 2))
      (Real.sqrt (1 - (Real.sin (radians (((90:ℚ):ℝ) - ((0:ℚ):ℝ)) / 2) ^ 2 +
        Real.cos (radians ((0:ℚ):ℝ)) * Real.cos (radians ((90:ℚ):ℝ)) *
          Real.sin (radians (((45:ℚ):ℝ) - ((0:ℚ):ℝ)) / 2) ^ 2)))) =
    6371000 * (Real.pi / 2)
  have e₁ : radians (((90:ℚ):ℝ) - ((0:ℚ):ℝ)) / 2 = Real.pi / 4 := by
    unfold radians; push_cast; ring
  have e₂ : radians ((0:ℚ):ℝ) = 0 := by
    unfold radians; push_cast; ring
  have e₃ : radians ((90:ℚ):ℝ) = Real.pi / 2 := by
    unfold radians; push_cast; ring
  rw [e₁, e₂, e₃, Real.sin_pi_div_four, Real.cos_zero, Real.cos_pi_div_two]
  have hA : (Real.sqrt 2 / 2) ^ 2 + 1 * 0 *
      Real.sin (radians (((45:ℚ):ℝ) - ((0:ℚ):ℝ)) / 2) ^ 2 = 1 / 2 := by
    have h2 : Real.sqrt 2 ^ 2 = 2 := Real.sq_sqrt (by norm_num)
    nlinarith [h2]
  rw [hA]
  have hhalf : (0:ℝ) < Real.sqrt (1/2) := Real.sqrt_pos.mpr (by norm_num)
  have h1mh : (1:ℝ) - 1/2 = 1/2 := by norm_num
  rw [h1mh]
  unfold pyAtan2
  rw [if_pos hhalf]
  rw [div_self (ne_of_gt hhalf), Real.arctan_one]
  ring

theorem round1_thousand_ne {x : ℝ} (hx : 1 ≤ x) : round1 (1000 * x) ≠ round1 x := by
  unfold round1
  intro h
  have e : ((round (10 * (1000 * x)) : ℤ) : ℝ) = ((round (10 * x) : ℤ) : ℝ) := by
    field_simp at h
    exact_mod_cast h
  have h₁ := abs_sub_round (10 * (1000 * x))
  have h₂ := abs_sub_round (10 * x)
  rw [abs_le] at h₁ h₂
  rw [e] at h₁
  linarith [h₁.1, h₁.2, h₂.1, h₂.2]

/-- C1 (code bug): a search call with reference location (0, 0) over the
one-station repository returns the station with
`distance_meters = round1(1000 · haversine)`, 1000 times the rounded
haversine meters the claim (and `haversine_distance`'s own docstring)
prescribe: `search_stations` multiplies the already-meter-valued
`GeoUtils.haversine_distance` by 1000, its comment believing it converts km
to meters.  At this input the two values provably differ. -/
theorem c1_distance_attach_code_bug :
    ((searchStations [stationFar] "B" (some (0, 0)) 1 10).1.map
        (fun e => e.distance_meters)) =
      [some (round1 (1000 * haversineDistance 0 0 90 45))] ∧
    haversineDistance 0 0 90 45 = haversineDistanceMetersSpec 0 0 90 45 ∧
    round1 (1000 * haversineDistance 0 0 90 45) ≠
      round1 (haversineDistanceMetersSpec 0 0 90 45) := by
  refine ⟨?_, haversineDistance_eq_spec 0 0 90 45, ?_⟩
  · have hm : mergedResults [stationFar] "B" = [(stationFar, 1, "exact")] := by decide
    have ht : toSearchResults (some (0, 0)) (mergedResults [stationFar] "B") =
        [⟨stationFar, 1, "exact",
          some (round1 (1000 * haversineDistance 0 0 90 45))⟩] := by
      rw [hm]
      simp only [toSearchResults, List.map_cons, List.map_nil, attachedDistance]
      rw [if_pos (by decide)]
      rfl
    have hs : sortResults (some (0, 0))
        (toSearchResults (some (0, 0)) (mergedResults [stationFar] "B")) =
        [⟨stationFar, 1, "exact",
          some (round1 (1000 * haversineDistance 0 0 90 45))⟩] := by
      rw [ht]
      show List.mergeSort _ leScoreDist = _
      simp
    unfold searchStations
    rw [if_neg (by decide)]
    rw [hs]
    rfl
  · rw [← haversineDistance_eq_spec, haversineDistance_eval]
    apply round1_thousand_ne
    nlinarith [Real.pi_gt_three]


/-- C3: every entry returned by `find_nearby_stations` lies within the true
haversine radius (the bounding-box prefilter is followed by the exact
check), carries `distance_meters` equal to the haversine distance rounded
to 0.1 m, and the returned list is ascending in the stored distance. -/
theorem c3_find_nearby_within_radius_rounded_sorted (db : List Station) (lat lon radius : ℚ) :
    (findNearbyStations db lat lon radius).Forall (fun e =>
      haversineDistance lat lon e.station.latitude e.station.longitude ≤ (radius : ℝ) ∧
      e.distance_meters =
        round1 (haversineDistance lat lon e.station.latitude e.station.longitude)) ∧
    List.Pairwise (fun a b => a.distance_meters ≤ b.distance_meters)
      (findNearbyStations db lat lon radius) := by
  constructor
  · rw [List.forall_iff_forall_mem]
    intro e he
    unfold findNearbyStations at he
    rw [List.mem_mergeSort] at he
    obtain ⟨s, _, hf⟩ := List.mem_filterMap.mp he
    by_cases hd : haversineDistance lat lon s.latitude s.longitude ≤ (radius : ℝ)
    · rw [if_pos hd] at hf
      obtain rfl := Option.some_injective _ hf
      exact ⟨hd, rfl⟩
    · rw [if_neg hd] at hf
      cases hf
  · unfold findNearbyStations
    have hp := @List.sorted_mergeSort NearbyEntry
      (fun a b : NearbyEntry => decide (a.distance_meters ≤ b.distance_meters))
      (fun a b c hab hbc => by
        simp only [decide_eq_true_eq] at *
        exact le_trans hab hbc)
      (fun a b => by
        rcases le_total a.distance_meters b.distance_meters with h | h <;>
          simp [h])
      (((db.filter (fun s =>
        decide ((getBoundingBox lat lon radius).1 ≤ (s.latitude : ℝ)) &&
        decide ((s.latitude : ℝ) ≤ (getBoundingBox lat lon radius).2.1) &&
        decide ((getBoundingBox lat lon radius).2.2.1 ≤ (s.longitude : ℝ)) &&
        decide ((s.longitude : ℝ) ≤ (getBoundingBox lat lon radius).2.2.2))).filterMap
        (fun s =>
          if haversineDistance lat lon s.latitude s.longitude ≤ (radius : ℝ) then
            some ⟨s, round1 (haversineDistance lat lon s.latitude s.longitude)⟩
          else none)))
    exact hp.imp (fun hab => by simpa using hab)

/-- C3 witness: the theorem applied at a concrete center and radius. -/
theorem c3_witness :
    (findNearbyStations [] 0 0 100).Forall (fun e =>
      haversineDistance 0 0 e.station.latitude e.station.longitude ≤ ((100 : ℚ) : ℝ) ∧
      e.distance_meters =
        round1 (haversineDistance 0 0 e.station.latitude e.station.longitude)) ∧
    List.Pairwise (fun a b => a.distance_meters ≤ b.distance_meters)
      (findNearbyStations [] 0 0 100) :=
  c3_find_nearby_within_radius_rounded_sorted [] 0 0 100


end GPS
